import Mathlib

/-!
Shallow embedding of the Make-Friends backend friend routes
(routes/friends.js) and verification of the specification's claims
about them.

Users are Mongo documents; we model a document as a record with the
fields the routes touch.  Object ids are modelled as `Nat`, interest
strings as `String`.  The relationship fields (`friends`,
`sentFriendRequests`, `pendingFriendRequests`) are arrays of ids in
the database; `populate` turns them into arrays of documents, which
the routes immediately map back to id strings, so we keep them as
`List Nat` and model a populated candidate's friends list the same
way.  A `User.find` query over the collection is modelled as a filter
over a `directory : List User` of all stored users.
-/

namespace MakeFriends

structure User where
  id : Nat
  username : String
  interests : List String
  friends : List Nat
  sentFriendRequests : List Nat
  pendingFriendRequests : List Nat
deriving DecidableEq, Repr

/-- Output element of GET /friends/recommendations:
`{ user, mutualFriends, mutualInterests, score }`. -/
structure Recommendation where
  user : User
  mutualFriends : Nat
  mutualInterests : Nat
  score : Nat
deriving DecidableEq, Repr

/-- `excludeIds = [...friendIds, ...sentRequestIds, ...pendingRequestIds, user._id]`
(friends.js line 144). -/
def excludeIds (subject : User) : List Nat :=
  subject.friends ++ subject.sentFriendRequests ++ subject.pendingFriendRequests ++ [subject.id]

/-- The Mongo filter `interests: { $in: user.interests }`: the candidate's
interests array has at least one element of the subject's interests. -/
def sharesInterest (subject c : User) : Bool :=
  c.interests.any (fun i => subject.interests.contains i)

/-- `similarInterestsUsers` (friends.js lines 147-153): empty unless the
subject has interests, otherwise all users not in `excludeIds` sharing
an interest. -/
def interestPool (subject : User) (directory : List User) : List User :=
  if subject.interests.length > 0 then
    directory.filter (fun c => !(excludeIds subject).contains c.id && sharesInterest subject c)
  else []

/-- `potential.friends.filter(friend => friendIds.includes(friend._id.toString())).length`
(friends.js lines 164-166 and 176-178): the candidate's friends that are
also the subject's friends, counted over the candidate's list. -/
def mutualFriendsCount (subject c : User) : Nat :=
  (c.friends.filter (fun f => subject.friends.contains f)).length

/-- `mutualFriendsUsers` (friends.js lines 156-169): empty unless the
subject has friends, otherwise all users not in `excludeIds` that have
at least one friend in common with the subject. -/
def mutualFriendsPool (subject : User) (directory : List User) : List User :=
  if subject.friends.length > 0 then
    (directory.filter (fun c => !(excludeIds subject).contains c.id)).filter
      (fun c => decide (0 < mutualFriendsCount subject c))
  else []

/-- `user.interests.filter(interest => potential.interests.includes(interest)).length`
(friends.js lines 180-182): counted over the subject's interests list,
duplicates included. -/
def mutualInterestsCount (subject c : User) : Nat :=
  (subject.interests.filter (fun i => c.interests.contains i)).length

/-- The object built for each potential user (friends.js lines 175-190). -/
def scoreCandidate (subject c : User) : Recommendation :=
  { user := c
    mutualFriends := mutualFriendsCount subject c
    mutualInterests := mutualInterestsCount subject c
    score := mutualFriendsCount subject c * 2 + mutualInterestsCount subject c }

/-- `allPotentialUsers = [...new Set([...similarInterestsUsers, ...mutualFriendsUsers])]`
(friends.js line 172).  The two pools come from two separate `User.find`
calls, which return distinct document objects even for the same stored
user, and a JS `Set` deduplicates by object reference; so the `Set`
wrapper removes nothing and the result is the plain concatenation. -/
def allPotentialUsers (subject : User) (directory : List User) : List User :=
  interestPool subject directory ++ mutualFriendsPool subject directory

/-- One step of a stable sort by score descending: insert `r` into a
list already sorted that way, before any element of equal score. -/
def insertByScore (r : Recommendation) : List Recommendation → List Recommendation
  | [] => [r]
  | x :: xs => if r.score < x.score then x :: insertByScore r xs else r :: x :: xs

/-- `.sort((a, b) => b.score - a.score)` (friends.js line 192): a stable
sort placing higher scores first, modelled as insertion sort. -/
def sortByScore : List Recommendation → List Recommendation
  | [] => []
  | x :: xs => insertByScore x (sortByScore xs)

/-- The body of GET /friends/recommendations (friends.js lines 174-193):
map to scored records, keep positive scores, sort by score descending,
keep the first five. -/
def recommendations (subject : User) (directory : List User) : List Recommendation :=
  (sortByScore (((allPotentialUsers subject directory).map (scoreCandidate subject)).filter
      (fun rec => decide (0 < rec.score)))).take 5

/-- Size of the set intersection of two interest lists: the number of
distinct strings occurring in both.  This is the quantity the spec
says `mutualInterestCount` computes. -/
def interSize (xs ys : List String) : Nat :=
  (xs.dedup.filter (fun i => ys.contains i)).length

/-! ### GET /friends/search (friends.js lines 20-45) -/

/-- The Mongo filter `username: { $regex: startOfTerm, $options: 'i' }`
anchored at the start of the username: case-insensitive prefix match. -/
def matchesSearch (term : String) (c : User) : Bool :=
  List.isPrefixOf (term.data.map Char.toLower) (c.username.data.map Char.toLower)

/-- The `requestStatus` attached to each hit (friends.js lines 37-38). -/
def requestStatusFor (current c : User) : String :=
  if current.sentFriendRequests.contains c.id then "requested"
  else if current.friends.contains c.id then "friend"
  else "none"

/-- One element of the search response: the user document plus its
`requestStatus` field. -/
structure SearchEntry where
  user : User
  requestStatus : String
deriving DecidableEq, Repr

/-- GET /friends/search.  `q` is the `username` query parameter; a
missing or empty value is falsy, so the route answers `[]` before any
directory access.  Otherwise the query prefix-matches usernames,
excludes the requester's id, and limits to 10 hits, which are then
decorated with `requestStatus`. -/
def searchUsers (current : User) (q : Option String) (directory : List User) : List SearchEntry :=
  match q with
  | none => []
  | some term =>
    if term = "" then []
    else
      ((directory.filter (fun c => matchesSearch term c && c.id != current.id)).take 10).map
        (fun c => { user := c, requestStatus := requestStatusFor current c })

/-! ### POST /friends/request/:userId (friends.js lines 60-101) -/

/-- Response of the send-friend-request route: 404 when the receiver id
resolves to no user, 400 when the two are already friends, otherwise
the two updated documents plus the reported status string. -/
inductive RequestOutcome where
  | notFound : RequestOutcome
  | alreadyFriends : RequestOutcome
  | done : User → User → String → RequestOutcome
deriving DecidableEq, Repr

/-- The cancel branch (friends.js lines 75-88): drop the receiver from
the sender's sent list and the sender from the receiver's pending list. -/
def cancelUpdate (sender receiver : User) : User × User :=
  ({ sender with
      sentFriendRequests := sender.sentFriendRequests.filter (fun i => i != receiver.id) },
   { receiver with
      pendingFriendRequests := receiver.pendingFriendRequests.filter (fun i => i != sender.id) })

/-- The send branch (friends.js lines 90-95): push each id onto the
other's list. -/
def requestUpdate (sender receiver : User) : User × User :=
  ({ sender with
      sentFriendRequests := sender.sentFriendRequests ++ [receiver.id] },
   { receiver with
      pendingFriendRequests := receiver.pendingFriendRequests ++ [sender.id] })

/-- POST /friends/request/:userId. -/
def sendFriendRequest (sender : User) (receiver? : Option User) : RequestOutcome :=
  match receiver? with
  | none => .notFound
  | some receiver =>
    if sender.friends.contains receiver.id then .alreadyFriends
    else if sender.sentFriendRequests.contains receiver.id then
      .done (cancelUpdate sender receiver).1 (cancelUpdate sender receiver).2 "cancelled"
    else
      .done (requestUpdate sender receiver).1 (requestUpdate sender receiver).2 "requested"

/-- Two consecutive invocations of the route for the same pair, the
second one on the states the first one saved. -/
def sendTwice (sender receiver : User) : RequestOutcome :=
  match sendFriendRequest sender (some receiver) with
  | .done sender1 receiver1 _ => sendFriendRequest sender1 (some receiver1)
  | o => o

/-! ### POST /friends/accept/:userId (friends.js lines 105-131) -/

/-- Response of the accept route: 404 only when the sender id resolves
to no user, otherwise the updated receiver and sender documents. -/
inductive AcceptOutcome where
  | notFound : AcceptOutcome
  | accepted : User → User → AcceptOutcome
deriving DecidableEq, Repr

/-- The unconditional state change of the accept route (friends.js
lines 114-122): filter the pending/sent pair out and push each user
onto the other's friends list, with no check that a request existed. -/
def acceptUpdate (receiver sender : User) : User × User :=
  ({ receiver with
      pendingFriendRequests := receiver.pendingFriendRequests.filter (fun i => i != sender.id),
      friends := receiver.friends ++ [sender.id] },
   { sender with
      sentFriendRequests := sender.sentFriendRequests.filter (fun i => i != receiver.id),
      friends := sender.friends ++ [receiver.id] })

/-- POST /friends/accept/:userId. -/
def acceptFriendRequest (receiver : User) (sender? : Option User) : AcceptOutcome :=
  match sender? with
  | none => .notFound
  | some sender => .accepted (acceptUpdate receiver sender).1 (acceptUpdate receiver sender).2

/-- Accepting twice from the same sender, the second time on the states
the first acceptance saved. -/
def acceptTwice (receiver sender : User) : AcceptOutcome :=
  match acceptFriendRequest receiver (some sender) with
  | .accepted receiver1 sender1 => acceptFriendRequest receiver1 (some sender1)
  | o => o

/-! ### Sample data used by witnesses and counterexamples -/

def subjectA : User :=
  { id := 1, username := "alice", interests := ["chess"], friends := [100],
    sentFriendRequests := [5], pendingFriendRequests := [6] }

def candidateB : User :=
  { id := 2, username := "bob", interests := ["chess"], friends := [100],
    sentFriendRequests := [], pendingFriendRequests := [] }

def candidateC : User :=
  { id := 3, username := "carol", interests := [], friends := [],
    sentFriendRequests := [], pendingFriendRequests := [] }

/-- A subject whose interests list repeats the same string. -/
def dupSubject : User :=
  { id := 1, username := "dora", interests := ["chess", "chess"], friends := [],
    sentFriendRequests := [], pendingFriendRequests := [] }

def dupCandidate : User :=
  { id := 2, username := "eve", interests := ["chess"], friends := [],
    sentFriendRequests := [], pendingFriendRequests := [] }

/-! ### Helper lemmas about the recommendation pipeline -/

theorem mem_insertByScore {r a : Recommendation} {l : List Recommendation} :
    a ∈ insertByScore r l ↔ a = r ∨ a ∈ l := by
  induction l with
  | nil => simp [insertByScore]
  | cons x xs ih =>
    unfold insertByScore
    split
    · simp only [List.mem_cons, ih]
      tauto
    · simp [List.mem_cons]

theorem mem_sortByScore {a : Recommendation} {l : List Recommendation} :
    a ∈ sortByScore l ↔ a ∈ l := by
  induction l with
  | nil => simp [sortByScore]
  | cons x xs ih => simp [sortByScore, mem_insertByScore, ih]

theorem pairwise_insertByScore {r : Recommendation} {l : List Recommendation}
    (hl : l.Pairwise (fun a b => b.score ≤ a.score)) :
    (insertByScore r l).Pairwise (fun a b => b.score ≤ a.score) := by
  induction l with
  | nil => simp [insertByScore]
  | cons x xs ih =>
    rw [List.pairwise_cons] at hl
    unfold insertByScore
    split
    · rename_i hcond
      rw [List.pairwise_cons]
      refine ⟨?_, ih hl.2⟩
      intro b hb
      rcases mem_insertByScore.mp hb with rfl | hb
      · exact Nat.le_of_lt hcond
      · exact hl.1 b hb
    · rename_i hcond
      rw [List.pairwise_cons]
      refine ⟨?_, List.pairwise_cons.mpr hl⟩
      intro b hb
      rcases List.mem_cons.mp hb with rfl | hb
      · exact Nat.le_of_not_lt hcond
      · exact Nat.le_trans (hl.1 b hb) (Nat.le_of_not_lt hcond)

theorem pairwise_sortByScore (l : List Recommendation) :
    (sortByScore l).Pairwise (fun a b => b.score ≤ a.score) := by
  induction l with
  | nil => simp [sortByScore]
  | cons x xs ih => exact pairwise_insertByScore ih

/-- Anything in the output was a scored potential user with positive score. -/
theorem rec_mem_unfold {subject : User} {directory : List User} {r : Recommendation}
    (hr : r ∈ recommendations subject directory) :
    (∃ c ∈ allPotentialUsers subject directory, scoreCandidate subject c = r) ∧ 0 < r.score := by
  have h1 : r ∈ sortByScore (((allPotentialUsers subject directory).map (scoreCandidate subject)).filter
      (fun rec => decide (0 < rec.score))) :=
    List.mem_of_mem_take hr
  rw [mem_sortByScore] at h1
  rw [List.mem_filter] at h1
  obtain ⟨hmap, hpos⟩ := h1
  rw [List.mem_map] at hmap
  exact ⟨hmap, by simpa using hpos⟩

/-- Every member of either candidate pool survived the `$nin: excludeIds` filter. -/
theorem pool_mem_not_excluded {subject : User} {directory : List User} {c : User}
    (hc : c ∈ allPotentialUsers subject directory) :
    ¬ c.id ∈ excludeIds subject := by
  rcases List.mem_append.mp hc with h | h
  · unfold interestPool at h
    split at h
    · rw [List.mem_filter] at h
      have h2 := h.2
      rw [Bool.and_eq_true, Bool.not_eq_true'] at h2
      intro hmem
      exact absurd hmem (by simpa using h2.1)
    · simp at h
  · unfold mutualFriendsPool at h
    split at h
    · rw [List.mem_filter] at h
      rw [List.mem_filter] at h
      have h2 := h.1.2
      rw [Bool.not_eq_true'] at h2
      intro hmem
      exact absurd hmem (by simpa using h2)
    · simp at h

/-! ### Claims about the recommendation route -/

/-- C1: a candidate whose id is among the subject's friends, sent
requests, pending requests, or is the subject itself, never appears in
the output of the recommendations route. -/
theorem recommendations_respect_exclusion (subject : User) (directory : List User)
    (r : Recommendation) (hr : r ∈ recommendations subject directory) :
    ¬ r.user.id ∈ subject.friends ∧ ¬ r.user.id ∈ subject.sentFriendRequests ∧
      ¬ r.user.id ∈ subject.pendingFriendRequests ∧ r.user.id ≠ subject.id := by
  obtain ⟨⟨c, hc, hsc⟩, _⟩ := rec_mem_unfold hr
  have hex := pool_mem_not_excluded hc
  have huser : r.user = c := by rw [← hsc]; rfl
  rw [huser]
  refine ⟨?_, ?_, ?_, ?_⟩ <;> intro hmem <;> exact hex (by simp [excludeIds, hmem])

/-- Witness for C1 at concrete data. -/
theorem recommendations_respect_exclusion_witness :
    scoreCandidate subjectA candidateB ∈ recommendations subjectA [candidateB, candidateC] ∧
      (¬ (scoreCandidate subjectA candidateB).user.id ∈ subjectA.friends ∧
        ¬ (scoreCandidate subjectA candidateB).user.id ∈ subjectA.sentFriendRequests ∧
        ¬ (scoreCandidate subjectA candidateB).user.id ∈ subjectA.pendingFriendRequests ∧
        (scoreCandidate subjectA candidateB).user.id ≠ subjectA.id) :=
  ⟨by decide, recommendations_respect_exclusion subjectA [candidateB, candidateC] _ (by decide)⟩

/-- C4: every output element has score equal to twice the mutual-friend
count plus the mutual-interest count, and the score is positive. -/
theorem recommendations_score_formula (subject : User) (directory : List User)
    (r : Recommendation) (hr : r ∈ recommendations subject directory) :
    r.score = r.mutualFriends * 2 + r.mutualInterests ∧ 0 < r.score := by
  obtain ⟨⟨c, hc, hsc⟩, hpos⟩ := rec_mem_unfold hr
  refine ⟨?_, hpos⟩
  rw [← hsc]
  rfl

/-- Witness for C4 at concrete data. -/
theorem recommendations_score_formula_witness :
    scoreCandidate subjectA candidateB ∈ recommendations subjectA [candidateB, candidateC] ∧
      ((scoreCandidate subjectA candidateB).score =
          (scoreCandidate subjectA candidateB).mutualFriends * 2 +
            (scoreCandidate subjectA candidateB).mutualInterests ∧
        0 < (scoreCandidate subjectA candidateB).score) :=
  ⟨by decide, recommendations_score_formula subjectA [candidateB, candidateC] _ (by decide)⟩

/-- C6: the recommendations route returns at most five elements. -/
theorem recommendations_length_le_five (subject : User) (directory : List User) :
    (recommendations subject directory).length ≤ 5 :=
  List.length_take_le 5 _

/-- C7: a subject with no interests and no friends gets an empty
recommendation list. -/
theorem recommendations_empty_of_trivial_subject (subject : User) (directory : List User)
    (hi : subject.interests = []) (hf : subject.friends = []) :
    recommendations subject directory = [] := by
  simp [recommendations, allPotentialUsers, interestPool, mutualFriendsPool, sortByScore, hi, hf]

/-- Witness for C7 at concrete data. -/
theorem recommendations_empty_of_trivial_subject_witness :
    candidateC.interests = [] ∧ candidateC.friends = [] ∧
      recommendations candidateC [subjectA, candidateB] = [] :=
  ⟨by decide, by decide,
    recommendations_empty_of_trivial_subject candidateC [subjectA, candidateB] (by decide) (by decide)⟩

/-- C5: the output scores never increase between adjacent positions. -/
theorem recommendations_sorted (subject : User) (directory : List User) (i : Nat)
    (h : i + 1 < (recommendations subject directory).length) :
    ((recommendations subject directory).get ⟨i + 1, h⟩).score ≤
      ((recommendations subject directory).get ⟨i, Nat.lt_of_succ_lt h⟩).score := by
  have hp : (recommendations subject directory).Pairwise (fun a b => b.score ≤ a.score) := by
    unfold recommendations
    exact (pairwise_sortByScore _).sublist (List.take_sublist 5 _)
  rw [List.pairwise_iff_get] at hp
  exact hp ⟨i, Nat.lt_of_succ_lt h⟩ ⟨i + 1, h⟩ (by exact Nat.lt_succ_self i)

/-- Witness for C5 at concrete data with two output elements. -/
theorem recommendations_sorted_witness :
    0 + 1 < (recommendations subjectA [candidateB, candidateC]).length ∧
      ((recommendations subjectA [candidateB, candidateC]).get ⟨0 + 1, by decide⟩).score ≤
        ((recommendations subjectA [candidateB, candidateC]).get ⟨0, by decide⟩).score :=
  ⟨by decide, recommendations_sorted subjectA [candidateB, candidateC] 0 (by decide)⟩

/-- C2 (bug in the code): candidateB qualifies for both the interest
pool and the mutual-friend pool, and the route output contains it
twice; the `new Set` on line 172 deduplicates by object reference and
the two `User.find` calls return distinct documents, so nothing is
deduplicated by identifier. -/
theorem recommendations_duplicate_candidate :
    (recommendations subjectA [candidateB]).map (fun r => r.user.id) = [2, 2] := by decide

/-- C3 counterexample: the single scored candidate has
`mutualInterests = 2` while the set intersection of the two interest
lists has size 1, because the subject's own list repeats "chess". -/
theorem mutualInterests_duplicate_counterexample :
    (recommendations dupSubject [dupCandidate]).map
        (fun r => (r.mutualInterests, interSize dupSubject.interests r.user.interests)) =
      [(2, 1)] := by decide

/-- C3 amended: every output element's `mutualInterests` counts the
entries of the subject's interests list lying in the candidate's list,
unconditionally; when the subject's list has no duplicates this equals
the size of the set intersection. -/
theorem rec_mutualInterests_eq_interSize (subject : User) (directory : List User)
    (r : Recommendation) (hr : r ∈ recommendations subject directory) :
    r.mutualInterests = mutualInterestsCount subject r.user ∧
      (subject.interests.Nodup →
        r.mutualInterests = interSize subject.interests r.user.interests) := by
  obtain ⟨⟨c, hc, hsc⟩, _⟩ := rec_mem_unfold hr
  have huser : r.user = c := by rw [← hsc]; rfl
  have h1 : r.mutualInterests = mutualInterestsCount subject c := by rw [← hsc]; rfl
  rw [huser]
  refine ⟨h1, ?_⟩
  intro hnd
  rw [h1]
  unfold mutualInterestsCount interSize
  rw [List.dedup_eq_self.mpr hnd]

/-- Witness for the amended C3 at concrete data. -/
theorem rec_mutualInterests_eq_interSize_witness :
    scoreCandidate subjectA candidateB ∈ recommendations subjectA [candidateB] ∧
      ((scoreCandidate subjectA candidateB).mutualInterests =
          mutualInterestsCount subjectA (scoreCandidate subjectA candidateB).user ∧
        (subjectA.interests.Nodup →
          (scoreCandidate subjectA candidateB).mutualInterests =
            interSize subjectA.interests (scoreCandidate subjectA candidateB).user.interests)) :=
  ⟨by decide, rec_mutualInterests_eq_interSize subjectA [candidateB] _ (by decide)⟩

/-! ### Claims about the other friend routes -/

/-- C8: for an existing receiver who is not already a friend, the send
route cancels an existing request and otherwise records a new one, and
running it twice brings the pair back to its original state: exactly
when starting from no outstanding request, and up to reordering of the
duplicate-free lists when starting from an outstanding one. -/
theorem sendFriendRequest_toggle (s r : User) (hnf : ¬ r.id ∈ s.friends) :
    (r.id ∈ s.sentFriendRequests →
        sendFriendRequest s (some r) =
          RequestOutcome.done (cancelUpdate s r).1 (cancelUpdate s r).2 "cancelled") ∧
      (¬ r.id ∈ s.sentFriendRequests →
        sendFriendRequest s (some r) =
          RequestOutcome.done (requestUpdate s r).1 (requestUpdate s r).2 "requested") ∧
      (¬ r.id ∈ s.sentFriendRequests → ¬ s.id ∈ r.pendingFriendRequests →
        sendTwice s r = RequestOutcome.done s r "cancelled") ∧
      (r.id ∈ s.sentFriendRequests → s.id ∈ r.pendingFriendRequests →
        s.sentFriendRequests.Nodup → r.pendingFriendRequests.Nodup →
        sendTwice s r =
            RequestOutcome.done (requestUpdate (cancelUpdate s r).1 (cancelUpdate s r).2).1
              (requestUpdate (cancelUpdate s r).1 (cancelUpdate s r).2).2 "requested" ∧
          List.Perm (requestUpdate (cancelUpdate s r).1 (cancelUpdate s r).2).1.sentFriendRequests
            s.sentFriendRequests ∧
          List.Perm (requestUpdate (cancelUpdate s r).1 (cancelUpdate s r).2).2.pendingFriendRequests
            r.pendingFriendRequests) := by
  refine ⟨?_, ?_, ?_, ?_⟩
  · intro hmem
    simp [sendFriendRequest, hnf, hmem]
  · intro hmem
    simp [sendFriendRequest, hnf, hmem]
  · intro hs0 hp0
    have hfs : (s.sentFriendRequests ++ [r.id]).filter (fun i => i != r.id) =
        s.sentFriendRequests := by
      have h2 : s.sentFriendRequests.filter (fun i => i != r.id) = s.sentFriendRequests :=
        List.filter_eq_self.mpr (fun a ha => bne_iff_ne.mpr (fun h => hs0 (h ▸ ha)))
      simp [List.filter_append, h2]
    have hfp : (r.pendingFriendRequests ++ [s.id]).filter (fun i => i != s.id) =
        r.pendingFriendRequests := by
      have h2 : r.pendingFriendRequests.filter (fun i => i != s.id) = r.pendingFriendRequests :=
        List.filter_eq_self.mpr (fun a ha => bne_iff_ne.mpr (fun h => hp0 (h ▸ ha)))
      simp [List.filter_append, h2]
    unfold sendTwice
    rw [show sendFriendRequest s (some r) =
        RequestOutcome.done (requestUpdate s r).1 (requestUpdate s r).2 "requested" from by
      simp [sendFriendRequest, hnf, hs0]]
    simp [sendFriendRequest, requestUpdate, cancelUpdate, hnf, hfs, hfp]
  · intro hs1 hp1 hnds hndp
    unfold sendTwice
    rw [show sendFriendRequest s (some r) =
        RequestOutcome.done (cancelUpdate s r).1 (cancelUpdate s r).2 "cancelled" from by
      simp [sendFriendRequest, hnf, hs1]]
    refine ⟨?_, ?_, ?_⟩
    · simp [sendFriendRequest, cancelUpdate, requestUpdate, hnf]
    · show List.Perm ((cancelUpdate s r).1.sentFriendRequests ++ [r.id]) s.sentFriendRequests
      have he : (cancelUpdate s r).1.sentFriendRequests = s.sentFriendRequests.erase r.id := by
        simp [cancelUpdate, List.Nodup.erase_eq_filter hnds]
      rw [he]
      exact (List.perm_append_singleton r.id _).trans (List.perm_cons_erase hs1).symm
    · show List.Perm ((cancelUpdate s r).2.pendingFriendRequests ++ [s.id]) r.pendingFriendRequests
      have he : (cancelUpdate s r).2.pendingFriendRequests = r.pendingFriendRequests.erase s.id := by
        simp [cancelUpdate, List.Nodup.erase_eq_filter hndp]
      rw [he]
      exact (List.perm_append_singleton s.id _).trans (List.perm_cons_erase hp1).symm

/-- Witness for C8: a fresh request followed by a second invocation
restores the original pair exactly. -/
theorem sendFriendRequest_toggle_witness :
    ¬ candidateB.id ∈ subjectA.friends ∧
      ¬ candidateB.id ∈ subjectA.sentFriendRequests ∧
      ¬ subjectA.id ∈ candidateB.pendingFriendRequests ∧
      sendTwice subjectA candidateB = RequestOutcome.done subjectA candidateB "cancelled" :=
  ⟨by decide, by decide, by decide,
    (sendFriendRequest_toggle subjectA candidateB (by decide)).2.2.1 (by decide) (by decide)⟩

/-- C9: the accept route answers 404 exactly when the sender id resolves
to no user; for an existing sender it succeeds unconditionally, with no
check that a pending request exists, and accepting twice from the same
sender appends that sender twice to the receiver's friends list and
vice versa. -/
theorem acceptFriendRequest_spec (receiver : User) :
    (∀ q : Option User, (acceptFriendRequest receiver q = AcceptOutcome.notFound ↔ q = none)) ∧
      (∀ sender : User, acceptFriendRequest receiver (some sender) =
        AcceptOutcome.accepted (acceptUpdate receiver sender).1 (acceptUpdate receiver sender).2) ∧
      (∀ sender : User, acceptTwice receiver sender =
        AcceptOutcome.accepted
          { receiver with
              pendingFriendRequests :=
                receiver.pendingFriendRequests.filter (fun i => i != sender.id),
              friends := receiver.friends ++ [sender.id] ++ [sender.id] }
          { sender with
              sentFriendRequests := sender.sentFriendRequests.filter (fun i => i != receiver.id),
              friends := sender.friends ++ [receiver.id] ++ [receiver.id] }) := by
  refine ⟨?_, ?_, ?_⟩
  · intro q
    match q with
    | none => simp [acceptFriendRequest]
    | some sender => simp [acceptFriendRequest]
  · intro sender
    rfl
  · intro sender
    unfold acceptTwice
    simp [acceptFriendRequest, acceptUpdate, List.filter_filter]

/-- C10: search never returns the requester, returns at most ten
entries, and a missing or empty username parameter yields the empty
list whatever the directory holds. -/
theorem searchUsers_spec (current : User) (q : Option String) (directory : List User) :
    (∀ e ∈ searchUsers current q directory, e.user.id ≠ current.id) ∧
      (searchUsers current q directory).length ≤ 10 ∧
      ((q = none ∨ q = some "") → ∀ d : List User, searchUsers current q d = []) := by
  refine ⟨?_, ?_, ?_⟩
  · intro e he
    rcases q with _ | term
    · simp [searchUsers] at he
    · simp only [searchUsers] at he
      by_cases hterm : term = ""
      · rw [if_pos hterm] at he
        simp at he
      · rw [if_neg hterm] at he
        rw [List.mem_map] at he
        obtain ⟨c, hc, hce⟩ := he
        have hc2 := List.mem_of_mem_take hc
        rw [List.mem_filter] at hc2
        have h3 := hc2.2
        rw [Bool.and_eq_true] at h3
        have hne : (c.id != current.id) = true := h3.2
        rw [bne_iff_ne] at hne
        rw [← hce]
        exact hne
  · rcases q with _ | term
    · simp [searchUsers]
    · simp only [searchUsers]
      by_cases hterm : term = ""
      · rw [if_pos hterm]
        simp
      · rw [if_neg hterm]
        rw [List.length_map]
        exact List.length_take_le 10 _
  · rintro (rfl | rfl) d
    · rfl
    · simp [searchUsers]

/-- Witness for C10 at concrete data. -/
theorem searchUsers_spec_witness :
    ({ user := candidateB, requestStatus := "none" } : SearchEntry) ∈
        searchUsers subjectA (some "bo") [candidateB] ∧
      ({ user := candidateB, requestStatus := "none" } : SearchEntry).user.id ≠ subjectA.id ∧
      (searchUsers subjectA (some "bo") [candidateB]).length ≤ 10 ∧
      searchUsers subjectA none [candidateB] = [] :=
  ⟨by decide, (searchUsers_spec subjectA (some "bo") [candidateB]).1 _ (by decide),
    (searchUsers_spec subjectA (some "bo") [candidateB]).2.1,
    (searchUsers_spec subjectA none [candidateB]).2.2 (Or.inl rfl) [candidateB]⟩
